import Mathlib

/-!
Verification of the Business_Intelligent_Chatbot repository.

We shallowly embed the data-handling core of `main.py` and
`realdatabase.py`: pandas DataFrames become lists of rows over a typed
column schema, the preprocessing pipeline becomes a pure function on that
model, the LLM calls become oracles (`Option`/`Except` parameters), the
MD5-based user hash is implemented bit-for-bit over `Nat`, SQL `LIKE`
matching is implemented for the wildcard semantics MySQL gives it, and the
Streamlit mutation discipline of `complete_preprocessing_pipeline` is
checked against an explicit heap model.
-/

/-! ## DataFrame model

A pandas DataFrame is modelled as a column schema (name and dtype) plus a
list of rows.  `Dtype.numeric` stands for the non-`object` dtypes the code
distinguishes with `df[col].dtype != "object"`; `Dtype.object` is the
string/object dtype.  A cell is a missing value (`na`), a numeric value
(modelled as a rational), or a string. -/

inductive Dtype where
  | numeric : Dtype
  | object : Dtype
deriving DecidableEq, Repr

inductive Cell where
  | na : Cell
  | num : ℚ → Cell
  | str : String → Cell
deriving DecidableEq, Repr

structure DataFrame where
  cols : List (String × Dtype)
  rows : List (List Cell)
deriving DecidableEq, Repr

/-- Well-formedness: every row has exactly one cell per column. -/
def Wf (df : DataFrame) : Prop :=
  ∀ r ∈ df.rows, r.length = df.cols.length

instance (df : DataFrame) : Decidable (Wf df) :=
  decidable_of_iff (∀ r ∈ df.rows, r.length = df.cols.length) Iff.rfl

/-- The cells of column `j`, top to bottom (pandas `df[col]`). -/
def colCells (df : DataFrame) (j : Nat) : List Cell :=
  df.rows.map (fun r => r.getD j Cell.na)

/-- The dtype of column `j`. -/
def dtypeAt (df : DataFrame) (j : Nat) : Dtype :=
  (df.cols.getD j ("", Dtype.object)).2

/-- Whether any cell of the frame is missing (`df.isna().any().any()`). -/
def dfHasNa (df : DataFrame) : Bool :=
  df.rows.any (fun r => r.any (fun c => decide (c = Cell.na)))

/-! ## Manual preprocessing pipeline (`complete_preprocessing_pipeline`, main.py 43-73)

```python
df = df.copy()
for col in df.columns:
    missing_ratio = df[col].isna().mean()
    if missing_ratio <= 0.05: low_missing_cols.append(col)
    else: high_missing_cols.append(col)
df = df.dropna(subset=low_missing_cols)
for col in high_missing_cols:
    if df[col].dtype != "object":
        df[col] = df[col].fillna(df[col].median())
    else:
        df[col] = df[col].fillna(df[col].mode()[0] if not df[col].mode().empty else "")
df = df.drop_duplicates()
```
-/

/-- Number of missing cells in column `j`. -/
def colNaCount (df : DataFrame) (j : Nat) : Nat :=
  ((colCells df j).filter (fun c => decide (c = Cell.na))).length

/-- `df[col].isna().mean() <= 0.05`.  The mean of an empty boolean series
is NaN in pandas and `NaN <= 0.05` is `False`, hence the emptiness
guard; otherwise the comparison `count/n ≤ 1/20` is `20*count ≤ n`. -/
def isLowMissing (df : DataFrame) (j : Nat) : Bool :=
  decide (df.rows.length ≠ 0 ∧ 20 * colNaCount df j ≤ df.rows.length)

/-- Indices of the `low_missing_cols` list, in column order. -/
def lowIdx (df : DataFrame) : List Nat :=
  (List.range df.cols.length).filter (fun j => isLowMissing df j)

/-- Indices of the `high_missing_cols` list, in column order. -/
def highIdx (df : DataFrame) : List Nat :=
  (List.range df.cols.length).filter (fun j => !isLowMissing df j)

/-- Row predicate of `df.dropna(subset=low_missing_cols)`: the row is kept
iff none of the subset columns is missing in it. -/
def rowKeep (low : List Nat) (r : List Cell) : Bool :=
  low.all (fun j => decide (r.getD j Cell.na ≠ Cell.na))

/-- `df.dropna(subset=low_missing_cols)`, with the subset computed from the
original frame. -/
def dropStage (df : DataFrame) : DataFrame :=
  { df with rows := df.rows.filter (rowKeep (lowIdx df)) }

/-- Numeric values of a column, missing cells skipped (as pandas
`median` does). -/
def numVals (cells : List Cell) : List ℚ :=
  cells.filterMap (fun c => match c with | Cell.num q => some q | _ => none)

/-- String values of a column, missing cells skipped (as pandas
`mode` does). -/
def strVals (cells : List Cell) : List String :=
  cells.filterMap (fun c => match c with | Cell.str s => some s | _ => none)

/-- Sorted insertion, ascending. -/
def insertSorted (q : ℚ) : List ℚ → List ℚ
  | [] => [q]
  | x :: xs => if q ≤ x then q :: x :: xs else x :: insertSorted q xs

/-- Insertion sort, ascending (the order pandas sorts values in). -/
def sortQ : List ℚ → List ℚ
  | [] => []
  | x :: xs => insertSorted x (sortQ xs)

/-- pandas `Series.median()`: none on an empty series (NaN), the middle
element of the sorted values for odd length, the average of the two middle
elements for even length. -/
def medianQ (l : List ℚ) : Option ℚ :=
  let s := sortQ l
  if s.length = 0 then none
  else if s.length % 2 = 1 then some (s.getD (s.length / 2) 0)
  else some ((s.getD (s.length / 2 - 1) 0 + s.getD (s.length / 2) 0) / 2)

/-- pandas `Series.mode()[0]` for strings: among the most frequent values
the lexicographically smallest (`mode` returns its result sorted), `none`
on an empty series. -/
def modeMin (vals : List String) : Option String :=
  vals.foldl
    (fun acc v =>
      match acc with
      | none => some v
      | some w =>
        if vals.count v > vals.count w then some v
        else if vals.count v = vals.count w ∧ v < w then some v
        else acc)
    none

/-- The value `fillna` is called with for a column of the given dtype and
cells: the median for a non-object column (none when the median is NaN, in
which case `fillna` changes nothing), the first mode or `""` for an object
column. -/
def fillValueFor (dt : Dtype) (cells : List Cell) : Option Cell :=
  match dt with
  | Dtype.numeric => (medianQ (numVals cells)).map Cell.num
  | Dtype.object => some (Cell.str ((modeMin (strVals cells)).getD ""))

/-- `fillna` at the level of one cell: replace a missing cell by `v`. -/
def fillCell (v : Cell) (c : Cell) : Cell :=
  if c = Cell.na then v else c

/-- One iteration of the fill loop:
`df[col] = df[col].fillna(stat(df[col]))`. -/
def fillColAt (df : DataFrame) (j : Nat) : DataFrame :=
  match fillValueFor (dtypeAt df j) (colCells df j) with
  | none => df
  | some v =>
    { df with rows := df.rows.map (fun r => r.set j (fillCell v (r.getD j Cell.na))) }

/-- The whole fill loop over `high_missing_cols`, applied after the drop
stage. -/
def fillStage (df : DataFrame) : DataFrame :=
  (highIdx df).foldl fillColAt (dropStage df)

/-- `drop_duplicates()` keeps the first occurrence of each row.  pandas
treats NaN cells as equal for duplicate detection, as does `Cell`
equality. -/
def dedupFirstAux (seen : List (List Cell)) : List (List Cell) → List (List Cell)
  | [] => []
  | r :: rs =>
    if r ∈ seen then dedupFirstAux seen rs
    else r :: dedupFirstAux (r :: seen) rs

def dedupFirst (l : List (List Cell)) : List (List Cell) :=
  dedupFirstAux [] l

/-- `complete_preprocessing_pipeline` (main.py 43-73): classify columns by
missing ratio on the input, drop rows missing in low-missing columns, fill
high-missing columns (median / mode), drop duplicate rows. -/
def complete_preprocessing_pipeline (df : DataFrame) : DataFrame :=
  let df2 := fillStage df
  { df2 with rows := dedupFirst df2.rows }

/-! ## Hybrid preprocessing (`hybrid_preprocessing`, main.py 136-154)

The Gemini call of `gemini_auto_preprocessing` is an oracle returning the
generated code, or `none` when the call raised (the function catches every
exception and returns `None`).  The `exec` of `execute_generated_code` is
an oracle that either raises (`Except.error`) or terminates with the final
binding of `df` in `local_vars` (`none` when the generated code deleted
it, in which case `local_vars.get("df", df)` falls back to the input). -/

/-- `execute_generated_code` (main.py 117-133): on success return the
`df` binding of the executed locals (default: the input frame); on any
exception return the input frame. -/
def execute_generated_code (df : DataFrame)
    (execOutcome : Except String (Option DataFrame)) : DataFrame :=
  match execOutcome with
  | Except.error _ => df
  | Except.ok localsDf => localsDf.getD df

/-- `hybrid_preprocessing` (main.py 136-154): manual pipeline first, then
the generated code runs against the cleaned frame.  `if generated_code:`
is Python truthiness: `None` and `""` both skip the execution step. -/
def hybrid_preprocessing (df : DataFrame) (generated : Option String)
    (execOutcome : Except String (Option DataFrame)) : DataFrame :=
  let df_clean := complete_preprocessing_pipeline df
  match generated with
  | some code =>
    if code ≠ "" then execute_generated_code df_clean execOutcome else df_clean
  | none => df_clean

/-! ## User hash (`authenticate_user`, main.py 549-554)

```python
user_identifier = f"{user_name}_{user_email}"
user_hash = hashlib.md5(user_identifier.encode()).hexdigest()[:6]
table_name = "sales_data"
new_user_id = f"{user_hash}_{table_name}"
```

`hashlib.md5` is the MD5 of RFC 1321, computed here over `Nat` with
explicit reduction mod `2^32`; `.encode()` is UTF-8. -/

/-- Reduction to a 32-bit word. -/
def w32 (n : Nat) : Nat := n % 4294967296

/-- Bitwise complement of a 32-bit word. -/
def compl32 (n : Nat) : Nat := 4294967295 - n % 4294967296

/-- Left rotation of a 32-bit word by `s` (`0 ≤ s < 32`). -/
def rotl32 (x s : Nat) : Nat :=
  w32 (x * 2 ^ s) + x % 4294967296 / 2 ^ (32 - s)

/-- UTF-8 encoding of one character (Python `str.encode()`). -/
def utf8Bytes (c : Char) : List Nat :=
  let n := c.toNat
  if n < 128 then [n]
  else if n < 2048 then [192 + n / 64, 128 + n % 64]
  else if n < 65536 then [224 + n / 4096, 128 + n / 64 % 64, 128 + n % 64]
  else [240 + n / 262144, 128 + n / 4096 % 64, 128 + n / 64 % 64, 128 + n % 64]

/-- UTF-8 bytes of a string. -/
def strBytes (s : String) : List Nat :=
  s.data.foldr (fun c acc => utf8Bytes c ++ acc) []

/-- The 64 MD5 sine constants `K[i] = floor(2^32 * |sin(i+1)|)`. -/
def md5K : List Nat :=
  [0xd76aa478, 0xe8c7b756, 0x242070db, 0xc1bdceee,
   0xf57c0faf, 0x4787c62a, 0xa8304613, 0xfd469501,
   0x698098d8, 0x8b44f7af, 0xffff5bb1, 0x895cd7be,
   0x6b901122, 0xfd987193, 0xa679438e, 0x49b40821,
   0xf61e2562, 0xc040b340, 0x265e5a51, 0xe9b6c7aa,
   0xd62f105d, 0x02441453, 0xd8a1e681, 0xe7d3fbc8,
   0x21e1cde6, 0xc33707d6, 0xf4d50d87, 0x455a14ed,
   0xa9e3e905, 0xfcefa3f8, 0x676f02d9, 0x8d2a4c8a,
   0xfffa3942, 0x8771f681, 0x6d9d6122, 0xfde5380c,
   0xa4beea44, 0x4bdecfa9, 0xf6bb4b60, 0xbebfbc70,
   0x289b7ec6, 0xeaa127fa, 0xd4ef3085, 0x04881d05,
   0xd9d4d039, 0xe6db99e5, 0x1fa27cf8, 0xc4ac5665,
   0xf4292244, 0x432aff97, 0xab9423a7, 0xfc93a039,
   0x655b59c3, 0x8f0ccc92, 0xffeff47d, 0x85845dd1,
   0x6fa87e4f, 0xfe2ce6e0, 0xa3014314, 0x4e0811a1,
   0xf7537e82, 0xbd3af235, 0x2ad7d2bb, 0xeb86d391]

/-- The 64 MD5 per-round left-rotation amounts. -/
def md5S : List Nat :=
  [7, 12, 17, 22, 7, 12, 17, 22, 7, 12, 17, 22, 7, 12, 17, 22,
   5, 9, 14, 20, 5, 9, 14, 20, 5, 9, 14, 20, 5, 9, 14, 20,
   4, 11, 16, 23, 4, 11, 16, 23, 4, 11, 16, 23, 4, 11, 16, 23,
   6, 10, 15, 21, 6, 10, 15, 21, 6, 10, 15, 21, 6, 10, 15, 21]

/-- MD5 padding: append `0x80`, zero bytes to 56 mod 64, then the bit
length as a 64-bit little-endian quantity. -/
def md5Pad (msg : List Nat) : List Nat :=
  let padLen := (56 + 64 - (msg.length + 1) % 64) % 64
  let bitLen := 8 * msg.length % 18446744073709551616
  msg ++ [128] ++ List.replicate padLen 0 ++
    [bitLen % 256, bitLen / 256 % 256, bitLen / 65536 % 256,
     bitLen / 16777216 % 256, bitLen / 4294967296 % 256,
     bitLen / 1099511627776 % 256, bitLen / 281474976710656 % 256,
     bitLen / 72057594037927936 % 256]

/-- A 32-bit word from four little-endian bytes. -/
def wordOfBytesLE (b0 b1 b2 b3 : Nat) : Nat :=
  b0 + 256 * b1 + 65536 * b2 + 16777216 * b3

/-- Split a padded message into 16-word blocks (little-endian words). -/
def md5Blocks : List Nat → List (List Nat)
  | [] => []
  | b :: rest =>
    let block := (b :: rest).take 64
    let words := (List.range 16).map (fun k =>
      wordOfBytesLE (block.getD (4 * k) 0) (block.getD (4 * k + 1) 0)
        (block.getD (4 * k + 2) 0) (block.getD (4 * k + 3) 0))
    words :: md5Blocks (rest.drop 63)
termination_by bytes => bytes.length
decreasing_by
  simp only [List.length_drop, List.length_cons]
  omega

/-- One of the 64 MD5 steps on state `(a, b, c, d)` with message words
`m`. -/
def md5Step (m : List Nat) (st : Nat × Nat × Nat × Nat) (i : Nat) :
    Nat × Nat × Nat × Nat :=
  let (a, b, c, d) := st
  let fg : Nat × Nat :=
    if i < 16 then (b.land c |>.lor ((compl32 b).land d), i)
    else if i < 32 then (d.land b |>.lor ((compl32 d).land c), (5 * i + 1) % 16)
    else if i < 48 then (b.xor c |>.xor d, (3 * i + 5) % 16)
    else ((c.xor (b.lor (compl32 d))), 7 * i % 16)
  let tmp := w32 (fg.1 + a + md5K.getD i 0 + m.getD fg.2 0)
  (d, w32 (b + rotl32 tmp (md5S.getD i 0)), b, c)

/-- Process one 16-word block. -/
def md5Block (st : Nat × Nat × Nat × Nat) (m : List Nat) :
    Nat × Nat × Nat × Nat :=
  let (a0, b0, c0, d0) := st
  let (a, b, c, d) := (List.range 64).foldl (md5Step m) (a0, b0, c0, d0)
  (w32 (a0 + a), w32 (b0 + b), w32 (c0 + c), w32 (d0 + d))

/-- The 16 digest bytes of the MD5 of a byte string. -/
def md5DigestBytes (msg : List Nat) : List Nat :=
  let st :=
    (md5Blocks (md5Pad msg)).foldl md5Block
      (0x67452301, 0xefcdab89, 0x98badcfe, 0x10325476)
  let a := st.1
  let b := st.2.1
  let c := st.2.2.1
  let d := st.2.2.2
  [a % 256, a / 256 % 256, a / 65536 % 256, a / 16777216 % 256,
   b % 256, b / 256 % 256, b / 65536 % 256, b / 16777216 % 256,
   c % 256, c / 256 % 256, c / 65536 % 256, c / 16777216 % 256,
   d % 256, d / 256 % 256, d / 65536 % 256, d / 16777216 % 256]

/-- One lowercase hex digit. -/
def hexDigit (n : Nat) : Char :=
  "0123456789abcdef".data.getD n '0'

/-- Lowercase hex rendering of a byte list, two digits per byte. -/
def hexChars : List Nat → List Char
  | [] => []
  | b :: bs => hexDigit (b / 16) :: hexDigit (b % 16) :: hexChars bs

/-- `hashlib.md5(s.encode()).hexdigest()` as a list of characters. -/
def md5HexChars (s : String) : List Char :=
  hexChars (md5DigestBytes (strBytes s))

/-- `f"{user_name}_{user_email}"`. -/
def user_identifier (name email : String) : String :=
  name ++ "_" ++ email

/-- `hashlib.md5(user_identifier.encode()).hexdigest()[:6]`. -/
def user_hash (name email : String) : String :=
  String.mk (List.take 6 (md5HexChars (user_identifier name email)))

/-- `f"{user_hash}_{table_name}"` with `table_name = "sales_data"`. -/
def new_user_id (name email : String) : String :=
  user_hash name email ++ "_" ++ "sales_data"

/-- Table-name selection of `store_user_data` (realdatabase.py 162-167):
the session's `existing_table` when one is set, else
`f"{user_id}_{table_name}"`. -/
def store_table_name (existing : Option String) (uid tableName : String) :
    String :=
  match existing with
  | some t => t
  | none => uid ++ "_" ++ tableName

/-! ## Deleting user tables (`delete_all_user_tables`, realdatabase.py 257-281)

```python
pattern = f"{user_id}_%"
rows = conn.execute(text("... WHERE ... table_name LIKE :p"), {"p": pattern}).fetchall()
if not rows: return True
for r in rows: conn.execute(text(f"DROP TABLE `{tname}`"))
return True
```

MySQL `LIKE`: `%` matches any sequence of characters and `_` matches any
single character; other pattern characters match themselves. -/

/-- Fuel-indexed `LIKE` matcher.  Each recursive call shortens the pattern
or the subject, so `pattern.length + subject.length + 1` fuel is always
enough. -/
def likeMatchF : Nat → List Char → List Char → Bool
  | 0, _, _ => false
  | _ + 1, [], s => decide (s = [])
  | f + 1, p :: ps, s =>
    if p = '%' then
      likeMatchF f ps s ||
        (match s with
         | [] => false
         | _ :: srest => likeMatchF f ('%' :: ps) srest)
    else
      match s with
      | [] => false
      | c :: srest =>
        (decide (p = '_') || decide (p = c)) && likeMatchF f ps srest

/-- MySQL `LIKE` on strings. -/
def sqlLike (pattern subject : String) : Bool :=
  likeMatchF (pattern.data.length + subject.data.length + 1)
    pattern.data subject.data

/-- Boolean list-prefix test (declared before its `String` wrapper; also
used by the chart-keyword substring test below). -/
def listIsPrefix : List Char → List Char → Bool
  | [], _ => true
  | _ :: _, [] => false
  | p :: ps, c :: cs => decide (p = c) && listIsPrefix ps cs

/-- Literal prefix test used by the claim ("names begin with the hash
followed by an underscore"). -/
def strStartsWith (pre s : String) : Bool :=
  listIsPrefix pre.data s.data

/-- `delete_all_user_tables` on the success path, modelled against a
schema given as the list of table names of the current database.  Returns
the success flag, the dropped tables and the remaining schema. -/
def delete_all_user_tables (schema : List String) (user_id : String) :
    Bool × List String × List String :=
  let pattern := user_id ++ "_%"
  let dropped := schema.filter (fun t => sqlLike pattern t)
  let remaining := schema.filter (fun t => !sqlLike pattern t)
  (true, dropped, remaining)

/-! ## Auto chart detection (`auto_detect_axes`, main.py 319-361, and
`display_results_with_auto_chart`, main.py 389-419)

The Python loops with `break` are translated as folds that keep the first
hit; claim-level `find?` formulations are proved equivalent below. -/

/-- ASCII lowercase of a character (Python `str.lower()` on ASCII). -/
def toLowerCh (c : Char) : Char :=
  if 65 ≤ c.toNat ∧ c.toNat ≤ 90 then Char.ofNat (c.toNat + 32) else c

/-- ASCII lowercase of a string. -/
def lowerStr (s : String) : String :=
  String.mk (s.data.map toLowerCh)

/-- Boolean list-infix test. -/
def listIsInfix (needle : List Char) : List Char → Bool
  | [] => listIsPrefix needle []
  | c :: cs => listIsPrefix needle (c :: cs) || listIsInfix needle cs

/-- Python's substring test `needle in haystack`. -/
def containsSub (needle haystack : String) : Bool :=
  listIsInfix needle.data haystack.data

/-- `any(k in s for k in kws)`. -/
def kwHit (kws : List String) (s : String) : Bool :=
  kws.any (fun k => containsSub k s)

/-- The column names, `df.columns.tolist()`. -/
def colNames (df : DataFrame) : List String :=
  df.cols.map (fun c => c.1)

/-- `df.select_dtypes(include=['number']).columns.tolist()`. -/
def numericNames (df : DataFrame) : List String :=
  (df.cols.filter (fun c => decide (c.2 = Dtype.numeric))).map (fun c => c.1)

/-- `df.select_dtypes(exclude=['number']).columns.tolist()`. -/
def nonNumericNames (df : DataFrame) : List String :=
  (df.cols.filter (fun c => decide (c.2 ≠ Dtype.numeric))).map (fun c => c.1)

/-- `priority_time_cols` (main.py 324). -/
def priorityTimeCols : List String :=
  ["date", "week", "month", "day", "year"]

/-- `preferred_y_keywords` (main.py 346). -/
def preferredYKeywords : List String :=
  ["sales", "total", "amount", "price", "revenue", "qty", "quantity"]

/-- One step of a Python `for` loop that sets its result variable once and
then `break`s: once the accumulator is `some`, the body no longer runs. -/
def stepFirst {α β : Type} (f : β → Option α) (acc : Option α) (k : β) :
    Option α :=
  match acc with
  | some x => some x
  | none => f k

/-- Guard `if p c then some c else none`, the body shape of the detection
loops. -/
def guardSome {α : Type} (p : α → Bool) (c : α) : Option α :=
  if p c then some c else none

/-- Inner loop of the x-axis detection: first column whose lowercased name
contains the keyword, with `break`. -/
def findColWithKw (cols : List String) (kw : String) : Option String :=
  cols.foldl (stepFirst (guardSome (fun c => containsSub kw (lowerStr c)))) none

/-- Outer loop of the x-axis detection over `priority_time_cols`, with
`break` once `x_axis` is set. -/
def detectXTime (df : DataFrame) : Option String :=
  priorityTimeCols.foldl (stepFirst (fun kw => findColWithKw (colNames df) kw))
    none

/-- First numeric column other than `x` whose lowercased name contains a
preferred keyword (first y loop). -/
def detectYPreferred (df : DataFrame) (x : Option String) : Option String :=
  (numericNames df).foldl
    (stepFirst (guardSome
      (fun c => decide (some c ≠ x) && kwHit preferredYKeywords (lowerStr c))))
    none

/-- First numeric column other than `x` (fallback y loop). -/
def detectYAny (df : DataFrame) (x : Option String) : Option String :=
  (numericNames df).foldl (stepFirst (guardSome (fun c => decide (some c ≠ x))))
    none

/-- The x-axis choice: the time-keyword loops, else the first non-numeric
column, else `all_cols[0]`.  `none` can only arise on a frame with no
columns (where the Python `all_cols[0]` would raise). -/
def detectX (df : DataFrame) : Option String :=
  match detectXTime df with
  | some c => some c
  | none =>
    match nonNumericNames df with
    | c :: _ => some c
    | [] => (colNames df).head?

/-- The y-axis choice: the preferred-keyword loop, else the fallback
loop. -/
def detectY (df : DataFrame) (x : Option String) : Option String :=
  match detectYPreferred df x with
  | some c => some c
  | none => detectYAny df x

/-- `auto_detect_axes` (main.py 319-361). -/
def auto_detect_axes (df : DataFrame) : Option String × Option String :=
  (detectX df, detectY df (detectX df))

/-- `time_keywords` of the chart-selection logic (main.py 391). -/
def timeKeywords : List String :=
  ["date", "week", "month", "year", "day", "quarter", "time",
   "period", "daily", "monthly", "weekly", "yearly"]

/-- `trend_keywords` (main.py 396). -/
def trendKeywords : List String :=
  ["trend", "forecast", "increase", "growth", "pattern",
   "change", "season", "moving average", "progress"]

/-- `bar_keywords` (main.py 401). -/
def barKeywords : List String :=
  ["compare", "comparison", "distribution", "rank", "top",
   "bottom", "breakdown", "split"]

/-- Chart-type selection of `display_results_with_auto_chart`
(main.py 405-418).  When `y_axis` is set, `x_axis` is necessarily a
string in the code (a numeric column exists, so the frame has columns);
the `getD ""` default is never reached there. -/
def display_chart_type (df : DataFrame) (question : String) : String :=
  let axes := auto_detect_axes df
  let user_q := lowerStr question
  match axes.2 with
  | some _ =>
    if kwHit timeKeywords (lowerStr (axes.1.getD "")) ||
        kwHit timeKeywords user_q || kwHit trendKeywords user_q then
      "Line Chart"
    else if kwHit barKeywords user_q then "Bar Chart"
    else "Bar Chart"
  | none => "Histogram"

/-! ## Text-to-SQL (`text_to_sql_final`, main.py 212-243)

```python
if 'GEMINI_API_KEY' not in st.secrets: return None
...
sql_query = response.text.strip()
if "```sql" in sql_query:
    sql_query = sql_query.split("```sql")[1].split("```")[0].strip()
elif "```" in sql_query:
    sql_query = sql_query.split("```")[1].strip()
return sql_query
```

The model response is an oracle: `Except.error` for any exception raised
inside the `try` block. -/

/-- ASCII whitespace stripped by Python `str.strip()`. -/
def isPySpace (c : Char) : Bool :=
  decide (c = ' ' ∨ c = '\t' ∨ c = '\n' ∨ c = '\r' ∨
    c = Char.ofNat 11 ∨ c = Char.ofNat 12)

/-- Python `str.strip()` (ASCII whitespace). -/
def pyStrip (s : String) : String :=
  String.mk (((s.data.dropWhile isPySpace).reverse.dropWhile isPySpace).reverse)

/-- Fuel-indexed splitter on a non-overlapping separator, scanning left to
right; fuel `subject.length + 1` is enough since each step consumes at
least one subject character. -/
def splitOnF (sep : List Char) : Nat → List Char → List Char → List (List Char)
  | 0, acc, _ => [acc.reverse]
  | _ + 1, acc, [] => [acc.reverse]
  | f + 1, acc, c :: rest =>
    if listIsPrefix sep (c :: rest) then
      acc.reverse :: splitOnF sep f [] (List.drop (sep.length - 1) rest)
    else
      splitOnF sep f (c :: acc) rest

/-- Python `s.split(sep)` for a non-empty separator. -/
def pySplit (sep s : String) : List String :=
  (splitOnF sep.data (s.data.length + 1) [] s.data).map String.mk

/-- The markdown-fence cleanup applied to the model response
(main.py 232-239). -/
def cleanSqlResponse (t : String) : String :=
  let sql := pyStrip t
  if containsSub "```sql" sql then
    pyStrip ((pySplit "```" ((pySplit "```sql" sql).getD 1 "")).getD 0 "")
  else if containsSub "```" sql then
    pyStrip ((pySplit "```" sql).getD 1 "")
  else sql

/-- `text_to_sql_final` (main.py 212-243): `none` when the API key is
absent, `none` when the Gemini call (or anything else in the `try` block)
raises, and otherwise the cleaned response text. -/
def text_to_sql_final (hasApiKey : Bool)
    (response : Except String String) : Option String :=
  if hasApiKey then
    match response with
    | Except.error _ => none
    | Except.ok t => some (cleanSqlResponse t)
  else none

/-! ## Chunked insertion (`store_user_data`, realdatabase.py 180-206)

```python
chunk_size = 500
total_rows = len(df)
if total_rows == 0: return True
if total_rows > chunk_size:
    for i in range(0, total_rows, chunk_size):
        chunk = df.iloc[i:i+chunk_size].copy()
        chunk.to_sql(...)
else:
    df.to_sql(...)
return True
```
-/

/-- Python `range(start, stop, step)` for a positive step. -/
def rangeStep (start stop step : Nat) : List Nat :=
  if _h : 0 < step ∧ start < stop then
    start :: rangeStep (start + step) stop step
  else []
termination_by stop - start
decreasing_by omega

/-- Concatenation of a list of chunks (the succession of `to_sql` appends). -/
def concatAll : List (List α) → List α
  | [] => []
  | l :: ls => l ++ concatAll ls

/-- The rows `store_user_data` hands to `to_sql`, in insertion order, with
the success flag it returns on this path. -/
def store_user_data_rows (rows : List (List Cell)) (chunk_size : Nat) :
    Bool × List (List Cell) :=
  if rows.length = 0 then (true, [])
  else if rows.length > chunk_size then
    (true,
      concatAll ((rangeStep 0 rows.length chunk_size).map
        (fun i => (rows.drop i).take chunk_size)))
  else (true, rows)

/-! ## Heap model of the pipeline (for the no-mutation claim)

Python objects live on a heap; `complete_preprocessing_pipeline` receives
a reference, copies the frame (`df = df.copy()`), rebinding `df` to fresh
objects after `dropna` and `drop_duplicates`, and mutating only its own
copies through the `df[col] = ...` assignments.  The heap is a list of
frames indexed by allocation order. -/

abbrev Heap := List DataFrame

def heapGet (h : Heap) (r : Nat) : DataFrame :=
  h.getD r ⟨[], []⟩

def heapSet (h : Heap) (r : Nat) (d : DataFrame) : Heap :=
  h.set r d

/-- Allocate a fresh object holding `d`. -/
def heapAlloc (h : Heap) (d : DataFrame) : Heap × Nat :=
  (h ++ [d], h.length)

/-- `complete_preprocessing_pipeline` as a heap program: `arg` is the
caller's frame.  `df = df.copy()` allocates; `dropna` and
`drop_duplicates` return fresh frames that `df` is rebound to; each
`df[col] = df[col].fillna(...)` mutates the frame `df` currently points
to, in place. -/
def pipeline_heap (h0 : Heap) (arg : Nat) : Heap × Nat :=
  let p1 := heapAlloc h0 (heapGet h0 arg)
  let low := lowIdx (heapGet p1.1 p1.2)
  let high := highIdx (heapGet p1.1 p1.2)
  let dropped : DataFrame :=
    { heapGet p1.1 p1.2 with
      rows := (heapGet p1.1 p1.2).rows.filter (rowKeep low) }
  let p2 := heapAlloc p1.1 dropped
  let h3 := high.foldl
    (fun h j => heapSet h p2.2 (fillColAt (heapGet h p2.2) j)) p2.1
  let p4 := heapAlloc h3 { heapGet h3 p2.2 with
    rows := dedupFirst (heapGet h3 p2.2).rows }
  p4

/-! ## Claim-level chart heuristics (C6, C9)

The claim describes the detection as "the first column such that ...";
`find?`/`findSome?` formalise that reading directly, and the lemmas below
show the loop translation computes the same thing. -/

/-- The x axis as the claim states it: the first column (in the keyword
priority order date, week, month, day, year) whose name contains a time
keyword, else the first non-numeric column, else the first column. -/
def claim_x_axis (df : DataFrame) : Option String :=
  match priorityTimeCols.findSome?
      (fun kw => (colNames df).find? (fun c => containsSub kw (lowerStr c))) with
  | some c => some c
  | none =>
    match (nonNumericNames df).head? with
    | some c => some c
    | none => (colNames df).head?

/-- The y axis as the claim states it: the first numeric column other
than x whose name contains a preferred keyword, else the first numeric
column other than x. -/
def claim_y_axis (df : DataFrame) (x : Option String) : Option String :=
  match (numericNames df).find?
      (fun c => decide (some c ≠ x) && kwHit preferredYKeywords (lowerStr c)) with
  | some c => some c
  | none => (numericNames df).find? (fun c => decide (some c ≠ x))

/-- The chart type as the claim states it: Histogram when no y column was
found; Line Chart when the x column name or the question contains a time
keyword or the question contains a trend keyword; Bar Chart in every
other case. -/
def claim_chart_type (df : DataFrame) (question : String) : String :=
  let x := claim_x_axis df
  let y := claim_y_axis df x
  if y.isNone then "Histogram"
  else if kwHit timeKeywords (lowerStr (x.getD "")) ||
      kwHit timeKeywords (lowerStr question) ||
      kwHit trendKeywords (lowerStr question) then "Line Chart"
  else "Bar Chart"


/-! ## Claim-level pipeline notions (C1, C2) -/

/-- What one fill-loop iteration does to a column, at the level of its
cell list: nothing when the fill value is NaN (all-missing numeric
column), else every missing cell replaced by the fill value. -/
def fillResCol (dt : Dtype) (base : List Cell) : List Cell :=
  match fillValueFor dt base with
  | none => base
  | some v => base.map (fillCell v)

/-- The mean the claim C2 speaks of (pandas `Series.mean()`, missing
values skipped); the code calls `median`, not `mean`. -/
def meanQ (l : List ℚ) : Option ℚ :=
  if l.length = 0 then none
  else some (l.foldl (fun a b => a + b) 0 / (l.length : ℚ))

/-! ## Generic list lemmas -/

theorem getD_set_ne {α : Type} (l : List α) (j k : Nat) (v d : α)
    (h : j ≠ k) : (l.set j v).getD k d = l.getD k d := by
  induction l generalizing j k with
  | nil => simp [List.set]
  | cons a t ih =>
    cases j with
    | zero =>
      cases k with
      | zero => exact absurd rfl h
      | succ k => simp [List.set, List.getD]
    | succ j =>
      cases k with
      | zero => simp [List.set, List.getD]
      | succ k =>
        simp only [List.set, List.getD_cons_succ]
        exact ih j k (by omega)

theorem getD_set_self {α : Type} (l : List α) (j : Nat) (v d : α)
    (h : j < l.length) : (l.set j v).getD j d = v := by
  induction l generalizing j with
  | nil => simp at h
  | cons a t ih =>
    cases j with
    | zero => simp [List.set, List.getD]
    | succ j =>
      simp only [List.set, List.getD_cons_succ]
      exact ih j (by simpa using h)

theorem getD_append_left {α : Type} (l l' : List α) (k : Nat) (d : α)
    (h : k < l.length) : (l ++ l').getD k d = l.getD k d := by
  induction l generalizing k with
  | nil => simp at h
  | cons a t ih =>
    cases k with
    | zero => simp [List.getD]
    | succ k =>
      simp only [List.cons_append, List.getD_cons_succ]
      exact ih k (by simpa using h)

theorem getD_concat_self {α : Type} (l : List α) (x d : α) :
    (l ++ [x]).getD l.length d = x := by
  induction l with
  | nil => simp [List.getD]
  | cons a t ih => simp [List.getD_cons_succ, ih]

/-- A member of a list sits at some position, seen through `getD`. -/
theorem mem_iff_getD {α : Type} (l : List α) (c d : α) (h : c ∈ l) :
    ∃ j, j < l.length ∧ l.getD j d = c := by
  induction l with
  | nil => simp at h
  | cons a t ih =>
    rcases List.mem_cons.mp h with h₁ | h₂
    · exact ⟨0, by simp, by simp [List.getD, h₁]⟩
    · obtain ⟨j, hj, hg⟩ := ih h₂
      exact ⟨j + 1, by simpa using hj, by simpa [List.getD_cons_succ] using hg⟩

/-- Short-circuiting fold (a Python `for` loop with `break` once the
accumulator is set) ignores the list once the accumulator is `some`. -/
theorem foldl_stepFirst_some {α β : Type} (f : β → Option α) (l : List β)
    (a : α) : l.foldl (stepFirst f) (some a) = some a := by
  induction l with
  | nil => rfl
  | cons b t ih => simpa [stepFirst] using ih

/-- The short-circuiting fold computes `findSome?`. -/
theorem foldl_stepFirst_eq_findSome {α β : Type} (f : β → Option α)
    (l : List β) : l.foldl (stepFirst f) none = l.findSome? f := by
  induction l with
  | nil => rfl
  | cons b t ih =>
    simp only [List.foldl_cons, List.findSome?_cons, stepFirst]
    cases h : f b with
    | none => exact ih
    | some x => simp [foldl_stepFirst_some]

/-- `findSome?` over the guard `if p c then some c else none` is `find?`. -/
theorem findSome?_guardSome_eq_find {α : Type} (p : α → Bool) (l : List α) :
    l.findSome? (guardSome p) = l.find? p := by
  induction l with
  | nil => rfl
  | cons b t ih =>
    simp only [List.findSome?_cons, List.find?_cons, guardSome]
    cases h : p b with
    | false => simpa using ih
    | true => simp

/-- The short-circuiting fold with a guard computes `find?`. -/
theorem foldl_guard_eq_find {α : Type} (p : α → Bool) (l : List α) :
    l.foldl (stepFirst (guardSome p)) none = l.find? p := by
  rw [foldl_stepFirst_eq_findSome, findSome?_guardSome_eq_find]

/-! ## MD5 digest shape -/

theorem hexChars_length (bs : List Nat) : (hexChars bs).length = 2 * bs.length := by
  induction bs with
  | nil => rfl
  | cons b t ih => simp [hexChars, ih]; omega

theorem md5DigestBytes_length (msg : List Nat) :
    (md5DigestBytes msg).length = 16 := by
  simp [md5DigestBytes]

theorem md5HexChars_length (s : String) : (md5HexChars s).length = 32 := by
  simp [md5HexChars, hexChars_length, md5DigestBytes_length]

/-! ## Claim theorems C3, C4, C5, C7 -/

/-- **C3.** `hybrid_preprocessing` first runs the manual pipeline and then
executes the generated code against the pipeline's output (the cleaned
frame, not the original upload); when code generation returned `None` (or
the empty string, which Python truthiness also skips) or the execution of
the generated code raised, the result is the manually cleaned frame
unchanged. -/
theorem c3_hybrid_runs_on_cleaned (df : DataFrame) (gen : Option String)
    (ex : Except String (Option DataFrame)) :
    hybrid_preprocessing df gen ex =
      (match gen with
       | some code =>
         if code ≠ "" then
           execute_generated_code (complete_preprocessing_pipeline df) ex
         else complete_preprocessing_pipeline df
       | none => complete_preprocessing_pipeline df)
    ∧ (gen = none →
        hybrid_preprocessing df gen ex = complete_preprocessing_pipeline df)
    ∧ (∀ msg, ex = Except.error msg →
        hybrid_preprocessing df gen ex = complete_preprocessing_pipeline df) := by
  refine ⟨rfl, ?_, ?_⟩
  · rintro rfl
    rfl
  · rintro msg rfl
    cases gen with
    | none => rfl
    | some code =>
      by_cases h : code = ""
      · simp [hybrid_preprocessing, h]
      · simp [hybrid_preprocessing, h, execute_generated_code]

theorem c3_witness :
    hybrid_preprocessing ⟨[("a", Dtype.numeric)], [[Cell.num 1]]⟩
        (some "df = df.head(0)") (Except.error "NameError") =
      complete_preprocessing_pipeline ⟨[("a", Dtype.numeric)], [[Cell.num 1]]⟩ :=
  (c3_hybrid_runs_on_cleaned ⟨[("a", Dtype.numeric)], [[Cell.num 1]]⟩
    (some "df = df.head(0)") (Except.error "NameError")).2.2 "NameError" rfl

/-- **C4.** The user hash is the 6-character prefix of the MD5 hex digest
of `f"{name}_{email}"` (so always exactly 6 characters), the new user id
is that hash, an underscore, and the base table name `"sales_data"`, and
`store_user_data` names the stored table `f"{user_id}_{table_name}"`
(directly, or through the session's `existing_table`, which the
authentication path sets to the same hash-prefixed id). -/
theorem c4_user_hash_namespace (name email tableName : String) :
    user_hash name email =
      String.mk (List.take 6 (md5HexChars (name ++ "_" ++ email)))
    ∧ (user_hash name email).length = 6
    ∧ new_user_id name email = user_hash name email ++ "_" ++ "sales_data"
    ∧ store_table_name none (user_hash name email) tableName =
        user_hash name email ++ "_" ++ tableName
    ∧ store_table_name (some (new_user_id name email))
        (user_hash name email) tableName =
        user_hash name email ++ "_" ++ "sales_data" := by
  refine ⟨rfl, ?_, rfl, rfl, rfl⟩
  show (String.mk (List.take 6 (md5HexChars (user_identifier name email)))).length = 6
  have h32 := md5HexChars_length (user_identifier name email)
  simp [String.length, List.length_take, h32]

/-- **C5** (code bug witness).  The `LIKE` pattern `f"{user_id}_%"` built
by `delete_all_user_tables` treats its `_` as a single-character wildcard,
so the table `"abc123xfoo"` — which does **not** begin with `"abc123_"` —
matches and is dropped, contradicting the claim (and the function's own
docstring "Drop all tables that start with 'user_id_'").  Tables that do
carry the underscore prefix are dropped as the claim says, and unrelated
tables survive. -/
theorem c5_like_wildcard_divergence :
    sqlLike "abc123_%" "abc123xfoo" = true
    ∧ strStartsWith "abc123_" "abc123xfoo" = false
    ∧ delete_all_user_tables ["abc123_sales", "abc123xfoo", "zzz_t"] "abc123" =
        (true, ["abc123_sales", "abc123xfoo"], ["zzz_t"]) := by
  refine ⟨by decide, by decide, ?_⟩
  decide

/-- **C7.** `text_to_sql_final` returns `None` when the API key is absent
and when anything in its `try` block raises; on a successful model
response it returns the response text stripped of surrounding whitespace
and of markdown code fences: the (re-stripped) content between the first
` ```sql ` and the following ` ``` ` when present, else the content
between the first pair of ` ``` ` markers, else the stripped text
itself. -/
theorem c7_text_to_sql (t e : String) (resp : Except String String) :
    text_to_sql_final false resp = none
    ∧ text_to_sql_final true (Except.error e) = none
    ∧ text_to_sql_final true (Except.ok t) = some (cleanSqlResponse t)
    ∧ (containsSub "```sql" (pyStrip t) = true →
        cleanSqlResponse t =
          pyStrip ((pySplit "```"
            ((pySplit "```sql" (pyStrip t)).getD 1 "")).getD 0 ""))
    ∧ (containsSub "```sql" (pyStrip t) = false →
        containsSub "```" (pyStrip t) = true →
        cleanSqlResponse t = pyStrip ((pySplit "```" (pyStrip t)).getD 1 ""))
    ∧ (containsSub "```sql" (pyStrip t) = false →
        containsSub "```" (pyStrip t) = false →
        cleanSqlResponse t = pyStrip t) := by
  refine ⟨rfl, rfl, rfl, ?_, ?_, ?_⟩
  · intro h₁
    simp [cleanSqlResponse, h₁]
  · intro h₁ h₂
    simp [cleanSqlResponse, h₁, h₂]
  · intro h₁ h₂
    simp [cleanSqlResponse, h₁, h₂]

theorem c7_witness :
    text_to_sql_final true (Except.ok "x ```sql q ``` y") =
      some (cleanSqlResponse "x ```sql q ``` y")
    ∧ cleanSqlResponse "x ```sql q ``` y" =
        pyStrip ((pySplit "```"
          ((pySplit "```sql" (pyStrip "x ```sql q ``` y")).getD 1 "")).getD 0 "") :=
  ⟨(c7_text_to_sql "x ```sql q ``` y" "err" (Except.ok "z")).2.2.1,
   (c7_text_to_sql "x ```sql q ``` y" "err" (Except.ok "z")).2.2.2.1 (by decide)⟩

theorem findColWithKw_eq_find (cols : List String) (kw : String) :
    findColWithKw cols kw =
      cols.find? (fun c => containsSub kw (lowerStr c)) :=
  foldl_guard_eq_find _ cols

theorem detectXTime_eq_findSome (df : DataFrame) :
    detectXTime df =
      priorityTimeCols.findSome?
        (fun kw => (colNames df).find? (fun c => containsSub kw (lowerStr c))) := by
  unfold detectXTime
  rw [foldl_stepFirst_eq_findSome]
  congr 1
  funext kw
  exact findColWithKw_eq_find (colNames df) kw

theorem detectYPreferred_eq_find (df : DataFrame) (x : Option String) :
    detectYPreferred df x =
      (numericNames df).find?
        (fun c => decide (some c ≠ x) && kwHit preferredYKeywords (lowerStr c)) :=
  foldl_guard_eq_find _ (numericNames df)

theorem detectYAny_eq_find (df : DataFrame) (x : Option String) :
    detectYAny df x = (numericNames df).find? (fun c => decide (some c ≠ x)) :=
  foldl_guard_eq_find _ (numericNames df)

theorem detectX_eq_claim (df : DataFrame) : detectX df = claim_x_axis df := by
  unfold detectX claim_x_axis
  rw [detectXTime_eq_findSome]
  cases priorityTimeCols.findSome?
      (fun kw => (colNames df).find? (fun c => containsSub kw (lowerStr c))) with
  | some c => rfl
  | none => cases nonNumericNames df <;> rfl

theorem detectY_eq_claim (df : DataFrame) (x : Option String) :
    detectY df x = claim_y_axis df x := by
  unfold detectY claim_y_axis
  rw [detectYPreferred_eq_find, detectYAny_eq_find]

/-- The loop translation of `auto_detect_axes` agrees with the claim-level
`find?` formulation. -/
theorem auto_detect_axes_eq_claim (df : DataFrame) :
    auto_detect_axes df = (claim_x_axis df, claim_y_axis df (claim_x_axis df)) := by
  unfold auto_detect_axes
  rw [detectX_eq_claim, detectY_eq_claim]

/-- Membership helper: non-numeric column names are column names. -/
theorem nonNumericNames_subset (df : DataFrame) (c : String)
    (h : c ∈ nonNumericNames df) : c ∈ colNames df := by
  unfold nonNumericNames at h
  unfold colNames
  obtain ⟨pair, hmem, hfst⟩ := List.mem_map.mp h
  exact List.mem_map.mpr ⟨pair, (List.mem_filter.mp hmem).1, hfst⟩

/-- Membership helper: numeric column names are column names. -/
theorem numericNames_subset (df : DataFrame) (c : String)
    (h : c ∈ numericNames df) : c ∈ colNames df := by
  unfold numericNames at h
  unfold colNames
  obtain ⟨pair, hmem, hfst⟩ := List.mem_map.mp h
  exact List.mem_map.mpr ⟨pair, (List.mem_filter.mp hmem).1, hfst⟩

theorem claim_x_axis_mem (df : DataFrame) (h : df.cols ≠ []) :
    ∃ x, claim_x_axis df = some x ∧ x ∈ colNames df := by
  unfold claim_x_axis
  cases hfs : priorityTimeCols.findSome?
      (fun kw => (colNames df).find? (fun c => containsSub kw (lowerStr c))) with
  | some c =>
    obtain ⟨kw, _, hfind⟩ := List.exists_of_findSome?_eq_some hfs
    exact ⟨c, rfl, List.mem_of_find?_eq_some hfind⟩
  | none =>
    cases hh : (nonNumericNames df).head? with
    | some c =>
      refine ⟨c, rfl, nonNumericNames_subset df c ?_⟩
      cases hnn : nonNumericNames df with
      | nil => rw [hnn] at hh; simp at hh
      | cons a t =>
        rw [hnn] at hh
        simp only [List.head?_cons, Option.some.injEq] at hh
        rw [← hh]
        exact List.mem_cons_self a t
    | none =>
      have hcn : colNames df ≠ [] := by
        unfold colNames
        simpa using h
      cases hcs : colNames df with
      | nil => exact absurd hcs hcn
      | cons a t =>
        exact ⟨a, by simp, List.mem_cons_self a t⟩

theorem claim_y_axis_sound (df : DataFrame) (x : Option String) (c : String)
    (hy : claim_y_axis df x = some c) :
    c ∈ numericNames df ∧ some c ≠ x := by
  unfold claim_y_axis at hy
  cases hfind : (numericNames df).find?
      (fun cc => decide (some cc ≠ x) && kwHit preferredYKeywords (lowerStr cc)) with
  | some c' =>
    rw [hfind] at hy
    simp only [Option.some.injEq] at hy
    subst hy
    have hp := List.find?_some hfind
    simp only [Bool.and_eq_true, decide_eq_true_eq] at hp
    exact ⟨List.mem_of_find?_eq_some hfind, hp.1⟩
  | none =>
    rw [hfind] at hy
    have hp := List.find?_some hy
    simp only [decide_eq_true_eq] at hp
    exact ⟨List.mem_of_find?_eq_some hy, hp⟩

/-- **C6.** Chart detection is exactly the keyword if-chain of the claim:
the x/y axes are the `find?`-style "first column such that ..."
selections (with keyword-priority order for the time keywords), and the
chart type is `Histogram` when no y column was found, `Line Chart` when a
y column exists and the x name or the question carries a time keyword or
the question carries a trend keyword, and `Bar Chart` in every other
case (the code's bar-keyword branch also yields `Bar Chart`). -/
theorem c6_chart_detection (df : DataFrame) (question : String) :
    auto_detect_axes df = (claim_x_axis df, claim_y_axis df (claim_x_axis df))
    ∧ display_chart_type df question = claim_chart_type df question := by
  refine ⟨auto_detect_axes_eq_claim df, ?_⟩
  unfold display_chart_type claim_chart_type
  rw [auto_detect_axes_eq_claim df]
  cases hy : claim_y_axis df (claim_x_axis df) with
  | none => simp [hy]
  | some c =>
    cases hline : (kwHit timeKeywords (lowerStr ((claim_x_axis df).getD "")) ||
        kwHit timeKeywords (lowerStr question) ||
        kwHit trendKeywords (lowerStr question)) with
    | true => simp [hy, hline]
    | false =>
      cases hbar : kwHit barKeywords (lowerStr question) <;>
        simp [hy, hline, hbar]

/-- **C9.** On a frame with at least one column, `auto_detect_axes`
returns an x axis that is a column of the frame, and a y axis that is
either `none` or a numeric column of the frame distinct from the x
axis. -/
theorem c9_axes_sound (df : DataFrame) (h : df.cols ≠ []) :
    (∃ x, (auto_detect_axes df).1 = some x ∧ x ∈ colNames df)
    ∧ (∀ y, (auto_detect_axes df).2 = some y →
        y ∈ numericNames df ∧ some y ≠ (auto_detect_axes df).1) := by
  rw [auto_detect_axes_eq_claim df]
  constructor
  · exact claim_x_axis_mem df h
  · intro y hy
    exact claim_y_axis_sound df (claim_x_axis df) y hy

theorem c9_witness :
    (∃ x, (auto_detect_axes ⟨[("date", Dtype.object), ("sales", Dtype.numeric)], []⟩).1
        = some x ∧ x ∈ colNames ⟨[("date", Dtype.object), ("sales", Dtype.numeric)], []⟩)
    ∧ (∀ y, (auto_detect_axes ⟨[("date", Dtype.object), ("sales", Dtype.numeric)], []⟩).2
        = some y →
        y ∈ numericNames ⟨[("date", Dtype.object), ("sales", Dtype.numeric)], []⟩
        ∧ some y ≠ (auto_detect_axes ⟨[("date", Dtype.object), ("sales", Dtype.numeric)], []⟩).1) :=
  c9_axes_sound ⟨[("date", Dtype.object), ("sales", Dtype.numeric)], []⟩ (by decide)

/-! ## Chunked insertion (C8) -/

/-- The chunks `[i, i+step)` taken at the indices of
`range(start, stop, step)` concatenate back to `l.drop start`. -/
theorem rangeStep_chunks_join {α : Type} (step : Nat) (hstep : 0 < step)
    (l : List α) (start : Nat) :
    concatAll ((rangeStep start l.length step).map
      (fun i => (l.drop i).take step)) = l.drop start := by
  have H : ∀ n start, l.length - start ≤ n →
      concatAll ((rangeStep start l.length step).map
        (fun i => (l.drop i).take step)) = l.drop start := by
    intro n
    induction n with
    | zero =>
      intro start hle
      unfold rangeStep
      rw [dif_neg (by omega)]
      simp [concatAll, List.drop_eq_nil_of_le (by omega : l.length ≤ start)]
    | succ n ih =>
      intro start hle
      by_cases hlt : start < l.length
      · unfold rangeStep
        rw [dif_pos ⟨hstep, hlt⟩]
        simp only [List.map_cons, concatAll]
        rw [ih (start + step) (by omega)]
        have hdd : (l.drop start).drop step = l.drop (start + step) := by
          rw [List.drop_drop, Nat.add_comm]
        rw [← hdd, List.take_append_drop]
      · unfold rangeStep
        rw [dif_neg (by omega)]
        simp [concatAll, List.drop_eq_nil_of_le (by omega : l.length ≤ start)]
  exact H (l.length - start) start (Nat.le_refl _)

/-- **C8.** The chunks `[i, i+500)` for `i = 0, 500, ...` cover every row
exactly once and in order — their concatenation is the original row list —
so `store_user_data` hands exactly the input rows to `to_sql` (on the
single-insert path as well), and on an empty frame it returns `True`
having inserted nothing. -/
theorem c8_chunked_insertion (rows : List (List Cell)) :
    concatAll ((rangeStep 0 rows.length 500).map
      (fun i => (rows.drop i).take 500)) = rows
    ∧ store_user_data_rows rows 500 = (true, rows)
    ∧ store_user_data_rows [] 500 = (true, []) := by
  have hjoin := rangeStep_chunks_join 500 (by omega) rows 0
  rw [List.drop_zero] at hjoin
  refine ⟨hjoin, ?_, rfl⟩
  unfold store_user_data_rows
  by_cases h0 : rows.length = 0
  · rw [if_pos h0, List.length_eq_zero.mp h0]
  · rw [if_neg h0]
    by_cases hgt : rows.length > 500
    · rw [if_pos hgt, hjoin]
    · rw [if_neg hgt]

/-! ## Heap frame conditions (C10) -/

theorem length_foldl_heapSet (js : List Nat) (r : Nat)
    (f : Heap → Nat → DataFrame) :
    ∀ h : Heap, (js.foldl (fun h j => heapSet h r (f h j)) h).length =
      h.length := by
  induction js with
  | nil => intro h; rfl
  | cons a t ih =>
    intro h
    rw [List.foldl_cons, ih]
    simp [heapSet]

/-- Allocation does not disturb existing objects. -/
theorem heapGet_append_left (h : Heap) (d : DataFrame) (x : Nat)
    (hx : x < h.length) : heapGet (h ++ [d]) x = heapGet h x := by
  unfold heapGet
  exact getD_append_left h [d] x _ hx

/-- Repeated in-place updates of object `r` leave every other object
untouched. -/
theorem heapGet_foldl_set_ne (js : List Nat) (r x : Nat) (hx : x ≠ r)
    (f : Heap → Nat → DataFrame) :
    ∀ h : Heap, heapGet (js.foldl (fun h j => heapSet h r (f h j)) h) x =
      heapGet h x := by
  induction js with
  | nil => intro h; rfl
  | cons a t ih =>
    intro h
    rw [List.foldl_cons, ih]
    unfold heapGet heapSet
    exact getD_set_ne _ r x _ _ (fun he => hx he.symm)

/-- Repeated in-place updates of object `r` compute the corresponding pure
fold of the stored value. -/
theorem heapGet_foldl_set_self (js : List Nat) (r : Nat)
    (g : DataFrame → Nat → DataFrame) :
    ∀ h : Heap, r < h.length →
      heapGet (js.foldl (fun h j => heapSet h r (g (heapGet h r) j)) h) r =
        js.foldl g (heapGet h r) := by
  induction js with
  | nil => intro h _; rfl
  | cons a t ih =>
    intro h hr
    rw [List.foldl_cons, List.foldl_cons]
    have hlen : (heapSet h r (g (heapGet h r) a)).length = h.length := by
      simp [heapSet]
    have hself : heapGet (heapSet h r (g (heapGet h r) a)) r =
        g (heapGet h r) a := by
      unfold heapGet heapSet
      exact getD_set_self _ r _ _ hr
    rw [ih (heapSet h r (g (heapGet h r) a)) (by omega), hself]

/-- **C10.** The pipeline never mutates its argument: run as a heap
program, every `df[col] = ...` assignment hits only the pipeline's own
copy (`df = df.copy()` allocates a fresh object, and `dropna` /
`drop_duplicates` rebind `df` to fresh objects), so the caller's frame is
unchanged after the call. -/
theorem c10_pipeline_no_mutation (h0 : Heap) (arg : Nat)
    (harg : arg < h0.length) :
    heapGet (pipeline_heap h0 arg).1 arg = heapGet h0 arg := by
  unfold pipeline_heap heapAlloc
  dsimp only
  rw [heapGet_append_left _ _ _
    (by rw [length_foldl_heapSet]; simp; omega)]
  rw [heapGet_foldl_set_ne _ _ arg (by simp; omega)]
  rw [heapGet_append_left _ _ _ (by simp; omega),
    heapGet_append_left _ _ _ (by omega)]

theorem c10_witness :
    heapGet (pipeline_heap [⟨[("a", Dtype.numeric)], [[Cell.num 2]]⟩] 0).1 0 =
      heapGet [⟨[("a", Dtype.numeric)], [[Cell.num 2]]⟩] 0 :=
  c10_pipeline_no_mutation [⟨[("a", Dtype.numeric)], [[Cell.num 2]]⟩] 0
    (by decide)

/-- Reading a freshly allocated object yields the allocated value. -/
theorem heapGet_concat_self (h : Heap) (d : DataFrame) :
    heapGet (h ++ [d]) h.length = d := by
  unfold heapGet
  exact getD_concat_self h d _

/-- The heap program computes the pure pipeline: the returned reference
holds `complete_preprocessing_pipeline` of the argument's value. -/
theorem pipeline_heap_computes (h0 : Heap) (arg : Nat) :
    heapGet (pipeline_heap h0 arg).1 (pipeline_heap h0 arg).2 =
      complete_preprocessing_pipeline (heapGet h0 arg) := by
  unfold pipeline_heap heapAlloc
  dsimp only
  rw [heapGet_concat_self]
  rw [heapGet_foldl_set_self _ _ _ _ (by simp)]
  simp only [heapGet_concat_self]
  rfl

/-! ## Column-wise analysis of the fill loop (C1, C2) -/

theorem cols_fillColAt (df : DataFrame) (j : Nat) :
    (fillColAt df j).cols = df.cols := by
  unfold fillColAt
  cases fillValueFor (dtypeAt df j) (colCells df j) <;> rfl

theorem dtypeAt_fillColAt (df : DataFrame) (j j' : Nat) :
    dtypeAt (fillColAt df j) j' = dtypeAt df j' := by
  unfold dtypeAt
  rw [cols_fillColAt]

theorem wf_fillColAt (df : DataFrame) (j : Nat) (h : Wf df) :
    Wf (fillColAt df j) := by
  unfold fillColAt
  cases fillValueFor (dtypeAt df j) (colCells df j) with
  | none => exact h
  | some v =>
    intro r hr
    simp only [List.mem_map] at hr
    obtain ⟨r0, hr0, rfl⟩ := hr
    simp [List.length_set, h r0 hr0]

theorem colCells_fillColAt_ne (df : DataFrame) (j j' : Nat) (hne : j ≠ j') :
    colCells (fillColAt df j) j' = colCells df j' := by
  unfold fillColAt
  cases fillValueFor (dtypeAt df j) (colCells df j) with
  | none => rfl
  | some v =>
    unfold colCells
    simp only [List.map_map, Function.comp]
    exact List.map_congr_left (fun r _ => getD_set_ne r j j' _ _ hne)

theorem colCells_fillColAt_self (df : DataFrame) (j : Nat) (hwf : Wf df)
    (hj : j < df.cols.length) :
    colCells (fillColAt df j) j = fillResCol (dtypeAt df j) (colCells df j) := by
  unfold fillColAt fillResCol
  cases fillValueFor (dtypeAt df j) (colCells df j) with
  | none => rfl
  | some v =>
    unfold colCells
    simp only [List.map_map, Function.comp]
    refine List.map_congr_left (fun r hr => ?_)
    exact getD_set_self r j _ _ (by rw [hwf r hr]; exact hj)

theorem cols_foldl_fillColAt (js : List Nat) :
    ∀ df : DataFrame, (js.foldl fillColAt df).cols = df.cols := by
  induction js with
  | nil => intro df; rfl
  | cons a t ih =>
    intro df
    rw [List.foldl_cons, ih, cols_fillColAt]

theorem wf_foldl_fillColAt (js : List Nat) :
    ∀ df : DataFrame, Wf df → Wf (js.foldl fillColAt df) := by
  induction js with
  | nil => intro df h; exact h
  | cons a t ih =>
    intro df h
    rw [List.foldl_cons]
    exact ih _ (wf_fillColAt df a h)

theorem colCells_foldl_not_mem (js : List Nat) (j' : Nat) (hnm : j' ∉ js) :
    ∀ df : DataFrame, colCells (js.foldl fillColAt df) j' = colCells df j' := by
  induction js with
  | nil => intro df; rfl
  | cons a t ih =>
    intro df
    rw [List.foldl_cons,
      ih (fun hm => hnm (List.mem_cons_of_mem a hm)) (fillColAt df a)]
    exact colCells_fillColAt_ne df a j' (fun he => hnm (he ▸ List.mem_cons_self a t))

theorem colCells_foldl_mem (js : List Nat) (hnd : js.Nodup) (j : Nat)
    (hj : j ∈ js) :
    ∀ df : DataFrame, Wf df → j < df.cols.length →
      colCells (js.foldl fillColAt df) j =
        fillResCol (dtypeAt df j) (colCells df j) := by
  induction js with
  | nil => intro df _ _; exact absurd hj (List.not_mem_nil j)
  | cons a t ih =>
    intro df hwf hjlt
    rw [List.foldl_cons]
    rcases List.mem_cons.mp hj with rfl | hjt
    · have hat : j ∉ t := (List.nodup_cons.mp hnd).1
      rw [colCells_foldl_not_mem t j hat (fillColAt df j)]
      exact colCells_fillColAt_self df j hwf hjlt
    · have hne : a ≠ j := by
        intro he
        exact (List.nodup_cons.mp hnd).1 (he ▸ hjt)
      rw [ih (List.nodup_cons.mp hnd).2 hjt (fillColAt df a)
        (wf_fillColAt df a hwf) (by rw [cols_fillColAt]; exact hjlt)]
      rw [dtypeAt_fillColAt, colCells_fillColAt_ne df a j hne]

/-! ## Low/high classification, drop stage, dedup (C1) -/

theorem mem_highIdx_lt (df : DataFrame) (j : Nat) (h : j ∈ highIdx df) :
    j < df.cols.length := by
  unfold highIdx at h
  exact List.mem_range.mp (List.mem_filter.mp h).1

theorem highIdx_nodup (df : DataFrame) : (highIdx df).Nodup :=
  (List.nodup_range df.cols.length).filter _

theorem low_or_high (df : DataFrame) (j : Nat) (hj : j < df.cols.length) :
    j ∈ lowIdx df ∨ j ∈ highIdx df := by
  cases hlow : isLowMissing df j with
  | true =>
    exact Or.inl (List.mem_filter.mpr ⟨List.mem_range.mpr hj, hlow⟩)
  | false =>
    refine Or.inr (List.mem_filter.mpr ⟨List.mem_range.mpr hj, ?_⟩)
    rw [hlow]
    rfl

theorem mem_lowIdx_not_high (df : DataFrame) (j : Nat) (h : j ∈ lowIdx df) :
    j ∉ highIdx df := by
  intro hh
  have h1 : isLowMissing df j = true := (List.mem_filter.mp h).2
  have h2 : (!isLowMissing df j) = true := (List.mem_filter.mp hh).2
  rw [h1] at h2
  exact Bool.false_ne_true h2

theorem wf_dropStage (df : DataFrame) (h : Wf df) : Wf (dropStage df) := by
  intro r hr
  exact h r (List.mem_of_mem_filter hr)

theorem mem_dropStage_keep (df : DataFrame) (r : List Cell)
    (hr : r ∈ (dropStage df).rows) : rowKeep (lowIdx df) r = true :=
  List.of_mem_filter hr

theorem rowKeep_getD (low : List Nat) (r : List Cell) (j : Nat)
    (hk : rowKeep low r = true) (hj : j ∈ low) :
    r.getD j Cell.na ≠ Cell.na := by
  unfold rowKeep at hk
  rw [List.all_eq_true] at hk
  exact of_decide_eq_true (hk j hj)

theorem fillValueFor_ne_na (dt : Dtype) (cells : List Cell) (v : Cell)
    (h : fillValueFor dt cells = some v) : v ≠ Cell.na := by
  cases dt with
  | numeric =>
    unfold fillValueFor at h
    cases hm : medianQ (numVals cells) with
    | none => rw [hm] at h; simp at h
    | some q =>
      rw [hm] at h
      have h2 : some (Cell.num q) = some v := h
      injection h2 with h3
      rw [← h3]
      simp
  | object =>
    unfold fillValueFor at h
    simp only [Option.some.injEq] at h
    rw [← h]
    simp

theorem fillCell_ne_na (v c : Cell) (hv : v ≠ Cell.na) :
    fillCell v c ≠ Cell.na := by
  unfold fillCell
  by_cases hc : c = Cell.na
  · rw [if_pos hc]; exact hv
  · rw [if_neg hc]; exact hc

theorem mem_dedupFirstAux (l : List (List Cell)) :
    ∀ (seen : List (List Cell)) (x : List Cell),
      x ∈ dedupFirstAux seen l → x ∈ l := by
  induction l with
  | nil => intro seen x hx; exact absurd hx (List.not_mem_nil x)
  | cons r rs ih =>
    intro seen x hx
    unfold dedupFirstAux at hx
    by_cases hseen : r ∈ seen
    · rw [if_pos hseen] at hx
      exact List.mem_cons_of_mem r (ih seen x hx)
    · rw [if_neg hseen] at hx
      rcases List.mem_cons.mp hx with rfl | hx2
      · exact List.mem_cons_self x rs
      · exact List.mem_cons_of_mem r (ih (r :: seen) x hx2)

theorem nodup_dedupFirstAux (l : List (List Cell)) :
    ∀ seen : List (List Cell),
      (dedupFirstAux seen l).Nodup ∧
      ∀ x ∈ dedupFirstAux seen l, x ∉ seen := by
  induction l with
  | nil => intro seen; exact ⟨List.nodup_nil, fun x hx => absurd hx (List.not_mem_nil x)⟩
  | cons r rs ih =>
    intro seen
    unfold dedupFirstAux
    by_cases hseen : r ∈ seen
    · rw [if_pos hseen]
      exact ih seen
    · rw [if_neg hseen]
      obtain ⟨hnd, hout⟩ := ih (r :: seen)
      refine ⟨List.nodup_cons.mpr ⟨?_, hnd⟩, ?_⟩
      · intro hmem
        exact hout r hmem (List.mem_cons_self r seen)
      · intro x hx
        rcases List.mem_cons.mp hx with rfl | hx2
        · exact hseen
        · intro hxs
          exact hout x hx2 (List.mem_cons_of_mem r hxs)

theorem mem_dedupFirst (l : List (List Cell)) (x : List Cell)
    (hx : x ∈ dedupFirst l) : x ∈ l :=
  mem_dedupFirstAux l [] x hx

theorem nodup_dedupFirst (l : List (List Cell)) : (dedupFirst l).Nodup :=
  (nodup_dedupFirstAux l []).1

theorem fillResCol_of_some (dt : Dtype) (base : List Cell) (v : Cell)
    (hv : fillValueFor dt base = some v) :
    fillResCol dt base = base.map (fillCell v) := by
  unfold fillResCol
  rw [hv]

/-- After the fill loop, no column of the frame contains a missing cell,
provided every high-missing column has a fill value that is not NaN
(object columns always do; numeric columns do iff they kept at least one
value after the drop stage). -/
theorem colCells_fillStage_ne_na (df : DataFrame) (hwf : Wf df)
    (hcond : ∀ j ∈ highIdx df,
      (fillValueFor (dtypeAt df j) (colCells (dropStage df) j)).isSome = true)
    (j : Nat) (hj : j < df.cols.length) :
    ∀ c ∈ colCells (fillStage df) j, c ≠ Cell.na := by
  intro c hc
  unfold fillStage at hc
  rcases low_or_high df j hj with hlow | hhigh
  · rw [colCells_foldl_not_mem (highIdx df) j
      (mem_lowIdx_not_high df j hlow) (dropStage df)] at hc
    obtain ⟨r, hr, hgd⟩ := List.mem_map.mp hc
    rw [← hgd]
    exact rowKeep_getD (lowIdx df) r j (mem_dropStage_keep df r hr) hlow
  · rw [colCells_foldl_mem (highIdx df) (highIdx_nodup df) j hhigh
      (dropStage df) (wf_dropStage df hwf) (mem_highIdx_lt df j hhigh)] at hc
    have hcnd := hcond j hhigh
    rw [Option.isSome_iff_exists] at hcnd
    obtain ⟨v, hv⟩ := hcnd
    have hv' : fillValueFor (dtypeAt (dropStage df) j)
        (colCells (dropStage df) j) = some v := hv
    rw [fillResCol_of_some _ _ v hv'] at hc
    obtain ⟨b, _, hbc⟩ := List.mem_map.mp hc
    rw [← hbc]
    exact fillCell_ne_na v b (fillValueFor_ne_na _ _ v hv')

/-- **C1** (claim as amended).  `complete_preprocessing_pipeline` first
drops the rows that are missing in a low-missing column (missing ratio
≤ 0.05) — removal, not imputation — then imputes the high-missing
columns (median for numeric, mode or `""` for object; an all-missing
numeric column keeps its NaNs), then deduplicates.  The result has no
duplicate rows, and it has no missing value provided every numeric
high-missing column kept at least one value after the drop (equivalently:
every high-missing column's fill value exists). -/
theorem c1_pipeline_amended (df : DataFrame) (hwf : Wf df)
    (hcond : ∀ j ∈ highIdx df,
      (fillValueFor (dtypeAt df j) (colCells (dropStage df) j)).isSome = true) :
    (complete_preprocessing_pipeline df).rows.Nodup
    ∧ dfHasNa (complete_preprocessing_pipeline df) = false := by
  have hrows : (complete_preprocessing_pipeline df).rows =
      dedupFirst (fillStage df).rows := rfl
  constructor
  · rw [hrows]
    exact nodup_dedupFirst _
  · rw [Bool.eq_false_iff]
    intro hna
    unfold dfHasNa at hna
    rw [hrows, List.any_eq_true] at hna
    obtain ⟨r, hr, hrany⟩ := hna
    rw [List.any_eq_true] at hrany
    obtain ⟨c, hc, hcd⟩ := hrany
    have hceq : c = Cell.na := of_decide_eq_true hcd
    have hr2 : r ∈ (fillStage df).rows := mem_dedupFirst _ r hr
    obtain ⟨j, hjlt, hgd⟩ := mem_iff_getD r c Cell.na hc
    have hwfF : Wf (fillStage df) := by
      unfold fillStage
      exact wf_foldl_fillColAt _ _ (wf_dropStage df hwf)
    have hrl : r.length = df.cols.length := by
      rw [hwfF r hr2]
      unfold fillStage
      rw [cols_foldl_fillColAt]
      rfl
    have hj : j < df.cols.length := by omega
    have hcmem : c ∈ colCells (fillStage df) j :=
      List.mem_map.mpr ⟨r, hr2, hgd⟩
    exact colCells_fillStage_ne_na df hwf hcond j hj c hcmem hceq

theorem c1_witness :
    (complete_preprocessing_pipeline
      ⟨[("n", Dtype.numeric)], [[Cell.num 1], [Cell.na]]⟩).rows.Nodup
    ∧ dfHasNa (complete_preprocessing_pipeline
      ⟨[("n", Dtype.numeric)], [[Cell.num 1], [Cell.na]]⟩) = false :=
  c1_pipeline_amended ⟨[("n", Dtype.numeric)], [[Cell.num 1], [Cell.na]]⟩
    (by decide) (by decide)

/-- **C1** (counterexample to the claim as stated).  First conjunct: a
single all-missing numeric column survives the pipeline still missing
(its missing ratio 1 puts it in the high-missing class, the median of the
empty value list is NaN, and `fillna(NaN)` changes nothing), so the
returned table is *not* free of missing values.  Second conjunct: in a
20-row column with one missing cell the missing ratio is 1/20 ≤ 0.05, so
the row holding the missing value is *removed* by `dropna`, not imputed —
row removal that is not deduplication. -/
theorem c1_claim_counterexample :
    dfHasNa (complete_preprocessing_pipeline
      ⟨[("a", Dtype.numeric)], [[Cell.na]]⟩) = true
    ∧ (complete_preprocessing_pipeline
        ⟨[("a", Dtype.numeric)],
          [Cell.na] :: List.replicate 19 [Cell.num 1]⟩).rows
      = [[Cell.num 1]] := by
  constructor
  · decide
  · decide

/-- **C2** (counterexample to the claim as stated).  On the numeric
column `[0, 0, 3, NaN]` (missing ratio 1/4 > 0.05) the code fills the
missing cell with the *median* 0 of the remaining values, while the
claim's *mean* is 1: the filled column is `[0, 0, 3, 0]`, not
`[0, 0, 3, 1]`. -/
theorem c2_claim_counterexample :
    colCells (fillStage ⟨[("a", Dtype.numeric)],
        [[Cell.num 0], [Cell.num 0], [Cell.num 3], [Cell.na]]⟩) 0 =
      [Cell.num 0, Cell.num 0, Cell.num 3, Cell.num 0]
    ∧ meanQ (numVals (colCells (dropStage ⟨[("a", Dtype.numeric)],
        [[Cell.num 0], [Cell.num 0], [Cell.num 3], [Cell.na]]⟩) 0)) = some 1
    ∧ medianQ (numVals (colCells (dropStage ⟨[("a", Dtype.numeric)],
        [[Cell.num 0], [Cell.num 0], [Cell.num 3], [Cell.na]]⟩) 0)) = some 0
    ∧ Cell.num (0 : ℚ) ≠ Cell.num 1 := by
  have hvals : numVals (colCells (dropStage ⟨[("a", Dtype.numeric)],
      [[Cell.num 0], [Cell.num 0], [Cell.num 3], [Cell.na]]⟩) 0) = [0, 0, 3] := by
    decide
  refine ⟨by decide, ?_, by decide, by decide⟩
  rw [hvals]
  unfold meanQ
  simp only [List.foldl_cons, List.foldl_nil, List.length_cons, List.length_nil]
  norm_num

/-- **C2** (claim as amended).  In the fallback pipeline, every column
whose missing ratio exceeds 0.05 is filled — over the rows remaining
after the low-missing drop — with the column's *median* when numeric
(left unchanged when the column has no value left, where the median is
NaN) and with the column's first mode (lexicographically smallest most
frequent value; `""` when the column has no value) when non-numeric, each
missing cell being replaced by that fill value. -/
theorem c2_fill_median_mode (df : DataFrame) (hwf : Wf df) (j : Nat)
    (hj : j ∈ highIdx df) :
    colCells (fillStage df) j =
      fillResCol (dtypeAt df j) (colCells (dropStage df) j) := by
  unfold fillStage
  exact colCells_foldl_mem (highIdx df) (highIdx_nodup df) j hj (dropStage df)
    (wf_dropStage df hwf) (mem_highIdx_lt df j hj)

theorem c2_witness :
    colCells (fillStage ⟨[("a", Dtype.numeric)],
        [[Cell.num 0], [Cell.num 0], [Cell.num 3], [Cell.na]]⟩) 0 =
      fillResCol
        (dtypeAt ⟨[("a", Dtype.numeric)],
          [[Cell.num 0], [Cell.num 0], [Cell.num 3], [Cell.na]]⟩ 0)
        (colCells (dropStage ⟨[("a", Dtype.numeric)],
          [[Cell.num 0], [Cell.num 0], [Cell.num 3], [Cell.na]]⟩) 0) :=
  c2_fill_median_mode ⟨[("a", Dtype.numeric)],
      [[Cell.num 0], [Cell.num 0], [Cell.num 3], [Cell.na]]⟩
    (by decide) 0 (by decide)
